import Mathlib

/-!
Shallow embedding of the in-memory cache and streaming layer of
davlgd/static-web-server: `src/file_stream.rs` and `src/mem_cache.rs`.

Bytes are modelled as `Nat`, byte buffers as `List Nat`, timestamps
(`Instant`) as `Nat` seconds, and `usize`/`u64` quantities as `Nat`
(the program targets 64-bit platforms and every value involved stays
far below 2^64, so the `as u64`/`as usize` casts are the identity).

The repository files `conditional_headers.rs` and `file_response.rs`
are referenced by `mem_cache.rs` but are not among the sources; the
two functions taken from them (`ConditionalHeaders::check` and
`bytes_range`) are modelled from the specification and marked as such
in their doc comments.
-/

/-! ### file_stream.rs: buffer sizing -/

/-- The `cfg(unix)` value of `DEFAULT_READ_BUF_SIZE` (4096). -/
def DEFAULT_READ_BUF_SIZE : Nat := 4096

/-- The `cfg(not(unix))` value of `DEFAULT_READ_BUF_SIZE` (8192). -/
def DEFAULT_READ_BUF_SIZE_nonunix : Nat := 8192

/-- The `cfg(unix)` `get_block_size`: the device block size reported by the
file metadata, but never below the platform default. -/
def get_block_size (blksize : Nat) : Nat :=
  max blksize DEFAULT_READ_BUF_SIZE

/-- The `cfg(not(unix))` `get_block_size`: it receives the file metadata but
ignores it and returns the platform default. -/
def get_block_size_nonunix (_blksize : Nat) : Nat :=
  DEFAULT_READ_BUF_SIZE_nonunix

/-- The `cfg(unix)` build of `optimal_buf_size`: the block size capped by the
file length taken from the metadata. -/
def optimal_buf_size (blksize len : Nat) : Nat :=
  min (get_block_size blksize) len

/-- The `cfg(not(unix))` build of `optimal_buf_size`. -/
def optimal_buf_size_nonunix (blksize len : Nat) : Nat :=
  min (get_block_size_nonunix blksize) len

/-! ### file_stream.rs: FileStream::poll_next

One call to `poll_next` zeroes a transfer buffer of `buf_size` bytes and
performs one `read` on the wrapped reader.  The read outcome is modelled as
`none` for an I/O error and `some chunk` for a successful read of
`chunk.length` bytes (so `some []` is end-of-data); a successful read of `n`
bytes leaves the buffer holding the `n` bytes read followed by
`buf_size - n` of the initial zeroes.  The write-through target (the cache
entry content reachable under the stream's path key) is modelled as
`Option (List Nat)`: `none` when the stream has no key, the global lock is
unavailable or the entry is gone, in which case the append is skipped. -/

/-- Result of one `poll_next` call: a produced chunk, end of stream, or an
I/O error terminating the stream. -/
inductive PollOut where
  | ready (bytes : List Nat)
  | eof
  | ioError
deriving DecidableEq, Repr

/-- One step of `FileStream::poll_next`.  Note the order in the source: the
entry append `mem_file.bytes.put(buf.clone())` happens on the untruncated
zeroed buffer, and only afterwards is the buffer truncated to the `n` bytes
actually read before being yielded. -/
def poll_next (buf_size : Nat) (path_str : Option String)
    (readRes : Option (List Nat)) (cache : Option (List Nat)) :
    PollOut × Option (List Nat) :=
  match readRes with
  | none => (.ioError, cache)
  | some chunk =>
    if chunk.length = 0 then
      (.eof, cache)
    else
      let cache' :=
        match path_str, cache with
        | some _, some data =>
            some (data ++ (chunk ++ List.replicate (buf_size - chunk.length) 0))
        | _, _ => cache
      (.ready chunk, cache')

/-- Drive a `FileStream` through a schedule of successful reads (each list
entry is the bytes one `read` call returns; an empty entry is end-of-data),
threading the write-through cache content.  Returns the concatenation of
all chunks the stream produced together with the final cache content. -/
def streamAll (buf_size : Nat) (path_str : Option String)
    (reads : List (List Nat)) (cache : Option (List Nat)) :
    List Nat × Option (List Nat) :=
  match reads with
  | [] => ([], cache)
  | r :: rs =>
    match poll_next buf_size path_str (some r) cache with
    | (.ready bytes, cache') =>
        let rest := streamAll buf_size path_str rs cache'
        (bytes ++ rest.1, rest.2)
    | (_, cache') => ([], cache')

/-! ### mem_cache.rs: options and cache entries -/

/-- The in-memory files cache options (`MemCacheOpts`). -/
structure MemCacheOpts where
  max_size : Nat
  file_max_size : Nat
  file_ttl : Nat
deriving DecidableEq, Repr

/-- The `MemCacheOpts::new` constructor: note that the per-file maximum is
stored as `1024 * 1024 * file_max_size`. -/
def MemCacheOpts.new (max_size file_max_size file_ttl : Nat) : MemCacheOpts :=
  { max_size := max_size
    file_max_size := 1024 * 1024 * file_max_size
    file_ttl := file_ttl }

/-- In-memory file representation stored in the cache (`MemFile`). -/
structure MemFile where
  data : List Nat
  buf_size : Nat
  content_type : String
  last_modified : Option Nat
  expiration : Nat
deriving DecidableEq, Repr

/-- The `MemFile::new` constructor.  `BytesMut::with_capacity(len)` is an
empty buffer (capacity is not content), and the expiration instant is the
creation instant `now` plus `Duration::new(file_ttl, 0)`. -/
def MemFile.new (_len buf_size : Nat) (content_type : String)
    (last_modified : Option Nat) (file_ttl : Nat) (now : Nat) : MemFile :=
  { data := []
    buf_size := buf_size
    content_type := content_type
    last_modified := last_modified
    expiration := now + file_ttl }

/-- The `MemFile::has_expired` check: `Instant::now() > self.expiration`,
with the current instant passed explicitly. -/
def MemFile.has_expired (f : MemFile) (now : Nat) : Bool :=
  decide (f.expiration < now)

/-- The write-through append performed on a cache entry by
`FileStream::poll_next` (`mem_file.bytes.put(buf.clone())`): `BytesMut::put`
appends the whole given buffer to the content. -/
def MemFile.putBuf (f : MemFile) (buf : List Nat) : MemFile :=
  { f with data := f.data ++ buf }

/-! ### mem_cache.rs: responses

The pieces of the `hyper`/`headers` response surface that
`MemFile::response_body` manipulates: status code, typed headers and body
bytes. -/

/-- A `Content-Range` header value: either `bytes first-last/complete`
(inclusive byte positions, as rendered by `ContentRange::bytes`) or
`bytes */complete` (as rendered by `ContentRange::unsatisfied_bytes`). -/
inductive ContentRangeHeader where
  | bytesRange (first last complete : Nat)
  | unsatisfied (complete : Nat)
deriving DecidableEq, Repr

/-- The `headers` crate constructor `ContentRange::bytes(start..end, complete)`:
the exclusive end is turned into an inclusive last byte `end - 1`, and the
constructor fails when the resulting interval is empty (`start > end - 1`). -/
def contentRangeBytes (start endd complete : Nat) : Option ContentRangeHeader :=
  if endd ≤ start then none
  else some (.bytesRange start (endd - 1) complete)

/-- The response fields `MemFile::response_body` can set. -/
structure Response where
  status : Nat
  body : List Nat
  content_range : Option ContentRangeHeader := none
  content_length : Option Nat := none
  content_type : Option String := none
  accept_ranges : Bool := false
  last_modified : Option Nat := none
deriving DecidableEq, Repr

/-- The request headers `MemFile::response_body` consumes: an optional
`If-Modified-Since` timestamp and an optional single byte range
`bytes=first-last` with inclusive bounds. -/
structure ConditionalHeaders where
  if_modified_since : Option Nat
  range : Option (Nat × Nat)
deriving DecidableEq, Repr

/-- Outcome of the conditional-header check: a bodyless short-circuit
response, or permission to build a body for the (possibly absent) range. -/
inductive ConditionalBody where
  | noBody
  | withBody (range : Option (Nat × Nat))
deriving DecidableEq, Repr

/-- Modelled from the spec: `ConditionalHeaders::check` lives in
`conditional_headers.rs`, which is not among the sources.  Per the spec, a
request whose `If-Modified-Since` value is equal to or after the resource's
last-modified time produces a bodyless 304 with no further processing;
otherwise the range is handed on. -/
def ConditionalHeaders.check (c : ConditionalHeaders) (modified : Option Nat) :
    ConditionalBody :=
  match c.if_modified_since, modified with
  | some since, some lm => if lm ≤ since then .noBody else .withBody c.range
  | _, _ => .withBody c.range

/-- Modelled from the spec: `bytes_range` lives in `file_response.rs`, which
is not among the sources.  Per the spec, no `Range` header resolves to the
full interval `[0, length)`; a range with `start ≥ length` or `start > end`
is unsatisfiable (`BadRangeError`, here `none`); otherwise it resolves to
`(start, end)` with exclusive end, the wire format carrying the inclusive
last byte. -/
def bytes_range (range : Option (Nat × Nat)) (len : Nat) :
    Option (Nat × Nat) :=
  match range with
  | none => some (0, len)
  | some (first, last) =>
      if len ≤ first ∨ last < first then none
      else some (first, last + 1)

/-- Concatenation of the chunks a `FileStream` produces over an in-memory
reader of `bytes` (a `Cursor` bounded by `take`): each poll reads
`min buf_size remaining` bytes, and a zero-byte read ends the stream. -/
def cursorStream (buf_size : Nat) (bytes : List Nat) : List Nat :=
  if buf_size = 0 then []
  else if bytes.isEmpty then []
  else bytes.take buf_size ++ cursorStream buf_size (bytes.drop buf_size)
termination_by bytes.length
decreasing_by
  simp only [List.length_drop]
  rename_i h1 h2
  have hb : 0 < buf_size := Nat.pos_of_ne_zero h1
  have hl : 0 < bytes.length := by
    cases bytes with
    | nil => simp at h2
    | cons a l => simp
  exact Nat.sub_lt hl hb

/-- The `MemFile::response_body` function, following the source line by line:
check conditionals; on `WithBody`, freeze a copy of the content, resolve the
byte range against the copy's length, seek the cursor to `start` (a cursor
seek always succeeds), bound the reader to `sub_len = end - start`, stream
it; status 206 plus `Content-Range` when `sub_len ≠ len` (falling back to a
bare 416 when `ContentRange::bytes` rejects the interval), else status 200;
then `Content-Length` (equal to `sub_len` after the `len = sub_len`
reassignment), `Content-Type`, `Accept-Ranges: bytes` and, when present,
`Last-Modified`; a `BadRangeError` gives a bare 416 with
`Content-Range: bytes */len` and an empty body. -/
def MemFile.response_body (f : MemFile) (headers : ConditionalHeaders) :
    Response :=
  match headers.check f.last_modified with
  | .noBody => { status := 304, body := [] }
  | .withBody range =>
    let buf := f.data
    let len := buf.length
    match bytes_range range len with
    | some (start, endd) =>
      let sub_len := endd - start
      let body := cursorStream f.buf_size ((buf.drop start).take sub_len)
      if sub_len ≠ len then
        match contentRangeBytes start endd len with
        | some cr =>
            { status := 206
              body := body
              content_range := some cr
              content_length := some sub_len
              content_type := some f.content_type
              accept_ranges := true
              last_modified := f.last_modified }
        | none =>
            { status := 416
              body := []
              content_range := some (.unsatisfied len) }
      else
        { status := 200
          body := body
          content_length := some len
          content_type := some f.content_type
          accept_ranges := true
          last_modified := f.last_modified }
    | none =>
        { status := 416
          body := []
          content_range := some (.unsatisfied len) }

/-! ### Helper lemmas -/

/-- A `FileStream` over an in-memory reader with a positive buffer size
reproduces the reader's bytes exactly. -/
theorem cursorStream_eq (buf_size : Nat) (bytes : List Nat) (h : buf_size ≠ 0) :
    cursorStream buf_size bytes = bytes := by
  rw [cursorStream, if_neg h]
  by_cases hb : bytes.isEmpty = true
  · rw [if_pos hb]
    cases bytes with
    | nil => rfl
    | cons a l => simp at hb
  · rw [if_neg hb]
    rw [cursorStream_eq buf_size (bytes.drop buf_size) h]
    exact List.take_append_drop _ _
termination_by bytes.length
decreasing_by
  simp only [List.length_drop]
  have hbne : bytes ≠ [] := by
    intro hh
    rw [hh] at hb
    exact hb rfl
  exact Nat.sub_lt (List.length_pos.mpr hbne) (Nat.pos_of_ne_zero h)

/-! ### Claims -/

/-- Claim C1: write-through streaming does not populate the cache entry with
exactly the chunk of bytes actually read.  Evaluating `FileStream::poll_next`
with buffer size 4 over a 3-byte source delivered by one successful read: the
stream produces the source bytes `[1, 2, 3]`, but the cache entry content
receives the whole zero-padded transfer buffer `[1, 2, 3, 0]`, because the
source code appends `buf.clone()` before `buf.truncate(n)`.  The entry
content therefore differs from the concatenation of the produced chunks. -/
theorem c1_cache_append_padded :
    streamAll 4 (some "key") [[1, 2, 3]] (some []) = ([1, 2, 3], some [1, 2, 3, 0]) ∧
    (streamAll 4 (some "key") [[1, 2, 3]] (some [])).2 ≠
      some (streamAll 4 (some "key") [[1, 2, 3]] (some [])).1 := by
  decide

/-- Claim C2: the cache-entry content invariant fails on the code.  Streaming
a 5-byte source with buffer size 4 (one read of 4 bytes, one read of 1 byte)
produces the 5 source bytes to the client, but leaves 8 bytes in the entry
content: `content.len()` exceeds the file's true length. -/
theorem c2_content_exceeds_true_length :
    (streamAll 4 (some "key") [[1, 2, 3, 4], [5]] (some [])).1.length = 5 ∧
    (streamAll 4 (some "key") [[1, 2, 3, 4], [5]] (some [])).2 =
      some [1, 2, 3, 4, 5, 0, 0, 0] ∧
    ¬ ((streamAll 4 (some "key") [[1, 2, 3, 4], [5]] (some [])).2.getD []).length ≤
      (streamAll 4 (some "key") [[1, 2, 3, 4], [5]] (some [])).1.length := by
  decide

/-- Claim C6 counterexample: on the `cfg(not(unix))` build the reported
storage block size is ignored, so for block size 16384 and file length
100000 the function returns the platform default 8192, not the claimed
`min(max(B, platform_default), L) = 16384`. -/
theorem c6_counterexample :
    optimal_buf_size_nonunix 16384 100000 = 8192 ∧
    min (max 16384 DEFAULT_READ_BUF_SIZE_nonunix) 100000 = 16384 ∧
    (8192 : Nat) ≠ 16384 := by
  decide

/-- Claim C6 (amended): on unix the optimal buffer size is
`min(max(B, 4096), L)`; on non-unix builds the block size is not consulted
and the result is `min(8192, L)`.  Both functions are pure and total. -/
theorem c6_chunk_size_formula :
    (∀ blksize len,
      optimal_buf_size blksize len = min (max blksize DEFAULT_READ_BUF_SIZE) len) ∧
    (∀ blksize len,
      optimal_buf_size_nonunix blksize len = min DEFAULT_READ_BUF_SIZE_nonunix len) :=
  ⟨fun _ _ => rfl, fun _ _ => rfl⟩

/-- Claim C7 counterexample: for block size 0 and file length 100 we have
`B ≤ L`, yet the unix optimal buffer size is 100, strictly below the
platform default 4096 — the middle bound of the claim fails for files
smaller than the platform default. -/
theorem c7_counterexample :
    (0 : Nat) ≤ 100 ∧ optimal_buf_size 0 100 < DEFAULT_READ_BUF_SIZE := by
  decide

/-- Claim C7 (amended): `optimal_buf_size B L ≤ L` always;
`optimal_buf_size B L ≥ platform_default` whenever `B ≤ L` and additionally
`platform_default ≤ L`; and `optimal_buf_size B L = L` whenever
`L < platform_default`. -/
theorem c7_chunk_size_bounds :
    (∀ len blksize, optimal_buf_size blksize len ≤ len) ∧
    (∀ len blksize, blksize ≤ len → DEFAULT_READ_BUF_SIZE ≤ len →
      DEFAULT_READ_BUF_SIZE ≤ optimal_buf_size blksize len) ∧
    (∀ len blksize, len < DEFAULT_READ_BUF_SIZE → optimal_buf_size blksize len = len) := by
  refine ⟨fun len blksize => min_le_right _ _,
    fun len blksize hb hd => le_min (le_max_right _ _) hd,
    fun len blksize hl => min_eq_right (le_trans (le_of_lt hl) (le_max_right _ _))⟩

/-- Claim C7 witness: the amended bounds evaluated at block size 4096 with
file length 5000, and at block size 0 with file length 100. -/
theorem c7_witness :
    DEFAULT_READ_BUF_SIZE ≤ optimal_buf_size 4096 5000 ∧ optimal_buf_size 0 100 = 100 :=
  ⟨c7_chunk_size_bounds.2.1 5000 4096 (by decide) (by decide),
   c7_chunk_size_bounds.2.2 100 0 (by decide)⟩

/-- Claim C9 counterexample: constructing the options with a per-file maximum
of 1 stores `file_max_size = 1048576`, not 1 — the configured value is not
interpreted directly as a byte count. -/
theorem c9_counterexample :
    (MemCacheOpts.new 10 1 60).file_max_size = 1048576 ∧ (1048576 : Nat) ≠ 1 := by
  decide

/-- Claim C9 (amended): `MemCacheOpts::new(c, m, t)` stores capacity `c` and
TTL `t` unchanged, and stores the per-file maximum as `1024 * 1024 * m`
bytes: the configured maximum cacheable file size is interpreted as
mebibytes and converted to bytes at construction. -/
theorem c9_configuration_units :
    ∀ c m t, MemCacheOpts.new c m t =
      { max_size := c, file_max_size := 1024 * 1024 * m, file_ttl := t } :=
  fun _ _ _ => rfl

/-- Claim C3: range status selection.  For an entry of content length `L`
and a satisfiable requested range `bytes=first-last` (conditionals passing,
`first ≤ last < L`, resolving to `(start, end) = (first, last + 1)` with
sub-length `last + 1 - first`), the response has status 200 when the
sub-length equals `L` and otherwise status 206 with
`Content-Range: bytes first-last/L`; in both cases `Content-Length` is the
emitted sub-length, `Content-Type` comes from the entry, `Accept-Ranges:
bytes` is set, and `Last-Modified` is the entry's value when present. -/
theorem c3_range_status_selection (f : MemFile) (first last : Nat)
    (h1 : first ≤ last) (h2 : last < f.data.length) :
    (last + 1 - first = f.data.length →
      (f.response_body ⟨none, some (first, last)⟩).status = 200) ∧
    (last + 1 - first ≠ f.data.length →
      (f.response_body ⟨none, some (first, last)⟩).status = 206 ∧
      (f.response_body ⟨none, some (first, last)⟩).content_range =
        some (.bytesRange first last f.data.length)) ∧
    (f.response_body ⟨none, some (first, last)⟩).content_length =
      some (last + 1 - first) ∧
    (f.response_body ⟨none, some (first, last)⟩).content_type =
      some f.content_type ∧
    (f.response_body ⟨none, some (first, last)⟩).accept_ranges = true ∧
    (f.response_body ⟨none, some (first, last)⟩).last_modified =
      f.last_modified := by
  have hcheck : ConditionalHeaders.check ⟨none, some (first, last)⟩ f.last_modified
      = .withBody (some (first, last)) := by
    unfold ConditionalHeaders.check
    cases f.last_modified <;> rfl
  have hbr : bytes_range (some (first, last)) f.data.length = some (first, last + 1) := by
    simp only [bytes_range]
    rw [if_neg (by omega)]
  have hcr : contentRangeBytes first (last + 1) f.data.length
      = some (.bytesRange first last f.data.length) := by
    unfold contentRangeBytes
    rw [if_neg (by omega), Nat.add_sub_cancel]
  by_cases hs : last + 1 - first = f.data.length
  · simp [MemFile.response_body, hcheck, hbr, hcr, hs]
  · simp [MemFile.response_body, hcheck, hbr, hcr, hs]

/-- Claim C3 witness: an entry of 4 bytes with `Range: bytes=1-2` gives 206,
`Content-Range: bytes 1-2/4`, `Content-Length: 2`, the entry's content
type. -/
theorem c3_witness :
    (MemFile.response_body ⟨[10, 20, 30, 40], 2, "t", some 5, 99⟩
      ⟨none, some (1, 2)⟩).status = 206 ∧
    (MemFile.response_body ⟨[10, 20, 30, 40], 2, "t", some 5, 99⟩
      ⟨none, some (1, 2)⟩).content_range = some (.bytesRange 1 2 4) ∧
    (MemFile.response_body ⟨[10, 20, 30, 40], 2, "t", some 5, 99⟩
      ⟨none, some (1, 2)⟩).content_length = some 2 ∧
    (MemFile.response_body ⟨[10, 20, 30, 40], 2, "t", some 5, 99⟩
      ⟨none, some (1, 2)⟩).content_type = some "t" :=
  ⟨((c3_range_status_selection ⟨[10, 20, 30, 40], 2, "t", some 5, 99⟩ 1 2
      (by decide) (by decide)).2.1 (by decide)).1,
   ((c3_range_status_selection ⟨[10, 20, 30, 40], 2, "t", some 5, 99⟩ 1 2
      (by decide) (by decide)).2.1 (by decide)).2,
   (c3_range_status_selection ⟨[10, 20, 30, 40], 2, "t", some 5, 99⟩ 1 2
      (by decide) (by decide)).2.2.1,
   (c3_range_status_selection ⟨[10, 20, 30, 40], 2, "t", some 5, 99⟩ 1 2
      (by decide) (by decide)).2.2.2.1⟩

/-- Claim C4 counterexample: a request whose Range header is unsatisfiable
(`bytes=100-200` against a 3-byte entry) but whose `If-Modified-Since` is
equal to the entry's last-modified time yields 304, not 416 — so the
claim's "every request" quantification fails: the conditional check takes
precedence over unsatisfiable-range handling. -/
theorem c4_counterexample :
    (MemFile.response_body ⟨[1, 2, 3], 1, "t", some 10, 0⟩
      ⟨some 10, some (100, 200)⟩).status = 304 ∧
    (MemFile.response_body ⟨[1, 2, 3], 1, "t", some 10, 0⟩
      ⟨some 10, some (100, 200)⟩).status ≠ 416 := by
  decide

/-- Claim C4 (amended): for every entry of content length `L` and every
request that reaches range processing (the conditional check does not
short-circuit to 304) with a syntactically resolved but unsatisfiable range
(`first ≥ L` or `last < first`), the response is exactly status 416 with
`Content-Range: bytes */L`, an empty body and no other headers set. -/
theorem c4_unsatisfiable_range_416 (f : MemFile) (h : ConditionalHeaders)
    (first last : Nat) (hr : h.range = some (first, last))
    (hcond : h.check f.last_modified = .withBody h.range)
    (hbad : f.data.length ≤ first ∨ last < first) :
    f.response_body h =
      { status := 416, body := [],
        content_range := some (.unsatisfied f.data.length) } := by
  have hbr : bytes_range h.range f.data.length = none := by
    rw [hr]
    simp only [bytes_range]
    rw [if_pos hbad]
  simp [MemFile.response_body, hcond, hbr]

/-- Claim C4 witness: the amended statement evaluated on a 3-byte entry with
no conditional headers and `Range: bytes=100-200`. -/
theorem c4_witness :
    MemFile.response_body ⟨[1, 2, 3], 1, "t", none, 0⟩ ⟨none, some (100, 200)⟩ =
      { status := 416, body := [], content_range := some (.unsatisfied 3) } :=
  c4_unsatisfiable_range_416 ⟨[1, 2, 3], 1, "t", none, 0⟩ ⟨none, some (100, 200)⟩
    100 200 rfl (by decide) (by decide)

/-- Claim C5: conditional precedence.  Whenever the entry carries a
last-modified time and the request's `If-Modified-Since` is equal to or
after it, the response is exactly the bodyless 304 — no range processing,
no headers — regardless of any Range header in the request. -/
theorem c5_conditional_precedence (f : MemFile) (h : ConditionalHeaders)
    (lm since : Nat) (hlm : f.last_modified = some lm)
    (hi : h.if_modified_since = some since) (hle : lm ≤ since) :
    f.response_body h = { status := 304, body := [] } := by
  have hc : h.check f.last_modified = .noBody := by
    unfold ConditionalHeaders.check
    rw [hlm, hi]
    simp only
    rw [if_pos hle]
  simp only [MemFile.response_body, hc]

/-- Claim C5 witness: a 2-byte entry last modified at 10, a request with
`If-Modified-Since: 10` and `Range: bytes=0-1`, yields the bodyless 304. -/
theorem c5_witness :
    MemFile.response_body ⟨[1, 2], 1, "t", some 10, 0⟩ ⟨some 10, some (0, 1)⟩ =
      { status := 304, body := [] } :=
  c5_conditional_precedence ⟨[1, 2], 1, "t", some 10, 0⟩ ⟨some 10, some (0, 1)⟩
    10 10 rfl rfl (by decide)

/-- Claim C8: TTL semantics.  An entry created at instant `c` with TTL `ttl`
has its expiration fixed at creation as `c + ttl`; the write-through append
(the only mutation any modelled operation performs on an entry) leaves it
unchanged; and `has_expired` at instant `t` is a pure comparison that is
true exactly when `t` is strictly after `c + ttl` — in particular false at
any elapsed time below `ttl` and true at any elapsed time above it. -/
theorem c8_ttl_semantics (c ttl len bs t : Nat) (ct : String) (lm : Option Nat) :
    (MemFile.new len bs ct lm ttl c).expiration = c + ttl ∧
    (∀ buf, ((MemFile.new len bs ct lm ttl c).putBuf buf).expiration = c + ttl) ∧
    ((MemFile.new len bs ct lm ttl c).has_expired t = true ↔ c + ttl < t) ∧
    (∀ e, e < ttl → (MemFile.new len bs ct lm ttl c).has_expired (c + e) = false) ∧
    (∀ e, ttl < e → (MemFile.new len bs ct lm ttl c).has_expired (c + e) = true) := by
  refine ⟨rfl, fun _ => rfl, ?_, ?_, ?_⟩
  · simp [MemFile.new, MemFile.has_expired]
  · intro e he
    simp only [MemFile.new, MemFile.has_expired, decide_eq_false_iff_not]
    omega
  · intro e he
    simp only [MemFile.new, MemFile.has_expired, decide_eq_true_iff]
    omega

/-- Claim C8 witness: an entry created at instant 0 with TTL 10 is not
expired at instant 5 and is expired at instant 15. -/
theorem c8_witness :
    (MemFile.new 0 0 "" none 10 0).has_expired 5 = false ∧
    (MemFile.new 0 0 "" none 10 0).has_expired 15 = true :=
  ⟨(c8_ttl_semantics 0 10 0 0 5 "" none).2.2.2.1 5 (by decide),
   (c8_ttl_semantics 0 10 0 0 5 "" none).2.2.2.2 15 (by decide)⟩

/-- Claim C10: a partially populated entry is served as if complete.  For an
entry whose content holds `data.len()` bytes while the file's true length
`L` is larger, the full-body response still has status 200 with
`Content-Length` equal to `data.len()` and a body of exactly the buffered
bytes — strictly shorter than the real file — and range satisfiability is
judged against `data.len()`: any range starting at or past the buffer end
is rejected with 416 even though it would be satisfiable against `L`. -/
theorem c10_truncated_entry_served (f : MemFile) (L : Nat)
    (hL : f.data.length < L) (hbs : f.buf_size ≠ 0) :
    ((f.response_body ⟨none, none⟩).status = 200 ∧
     (f.response_body ⟨none, none⟩).content_length = some f.data.length ∧
     (f.response_body ⟨none, none⟩).body = f.data ∧
     (f.response_body ⟨none, none⟩).body.length < L) ∧
    (∀ first last, f.data.length ≤ first →
      (f.response_body ⟨none, some (first, last)⟩).status = 416) := by
  have hcheck : ConditionalHeaders.check ⟨none, none⟩ f.last_modified
      = .withBody none := by
    unfold ConditionalHeaders.check
    cases f.last_modified <;> rfl
  have hres : f.response_body ⟨none, none⟩ =
      { status := 200
        body := cursorStream f.buf_size f.data
        content_length := some f.data.length
        content_type := some f.content_type
        accept_ranges := true
        last_modified := f.last_modified } := by
    simp [MemFile.response_body, hcheck, bytes_range]
  refine ⟨?_, ?_⟩
  · rw [hres]
    refine ⟨rfl, rfl, cursorStream_eq _ _ hbs, ?_⟩
    rw [cursorStream_eq _ _ hbs]
    exact hL
  · intro first last hge
    have hcheck2 : ConditionalHeaders.check ⟨none, some (first, last)⟩ f.last_modified
        = .withBody (some (first, last)) := by
      unfold ConditionalHeaders.check
      cases f.last_modified <;> rfl
    have hbr : bytes_range (some (first, last)) f.data.length = none := by
      simp only [bytes_range]
      rw [if_pos (Or.inl hge)]
    simp [MemFile.response_body, hcheck2, hbr]

/-- Claim C10 witness: a 2-byte entry standing for a 5-byte file is served
with status 200 and `Content-Length: 2`, and `Range: bytes=2-4` (satisfiable
against the true length 5) is rejected with 416. -/
theorem c10_witness :
    (MemFile.response_body ⟨[1, 2], 1, "t", none, 0⟩ ⟨none, none⟩).status = 200 ∧
    (MemFile.response_body ⟨[1, 2], 1, "t", none, 0⟩ ⟨none, none⟩).content_length =
      some 2 ∧
    (MemFile.response_body ⟨[1, 2], 1, "t", none, 0⟩ ⟨none, some (2, 4)⟩).status = 416 :=
  ⟨(c10_truncated_entry_served ⟨[1, 2], 1, "t", none, 0⟩ 5 (by decide) (by decide)).1.1,
   (c10_truncated_entry_served ⟨[1, 2], 1, "t", none, 0⟩ 5 (by decide) (by decide)).1.2.1,
   (c10_truncated_entry_served ⟨[1, 2], 1, "t", none, 0⟩ 5 (by decide) (by decide)).2
     2 4 (by decide)⟩
